import Mathlib

/-!
# Verification of the Velero backup reconciliation core

A shallow embedding, in Lean 4, of the backup controller and the backup/schedule
printers of the Velero repository fragment.

* `pkg/cmd/util/output/backup_printer.go` is embedded directly:
  `sortBackupsByPrefixAndTimestamp`, `printBackup` and the table row it produces.
  Go's `sort.Slice` is embedded in full from `sort.go` of the Go releases
  contemporary with this repository (Go 1.12/1.13; the algorithm is unchanged
  up to Go 1.18): quicksort with median-of-three pivoting and a heapsort
  fallback above 12 elements, and a gap-6 shell pass followed by insertion
  sort for segments of at most 12.
* The backup controller itself (`processBackup`, `prepareBackupRequest`,
  `validateAndGetSnapshotLocations`, the label encoding) is not part of the
  source fragment; only its test file is.  Those definitions are modelled from
  the specification (sections 4.2-4.6 and 7), with the exact user-visible
  message strings pinned by the repository's tests.
* Go machine integers are modelled as `Nat` (all quantities involved are
  non-negative counters or timestamps); 32-bit arithmetic inside SHA-256 is
  made explicit with reduction modulo `2 ^ 32`.  Go strings are compared
  byte-wise; names occurring here are ASCII, so the comparison coincides with
  the code-point comparison on `List Char` used below.
-/

namespace Velero

/-! ## Data model -/

/-- Backup phase tag.  The Go type is a string; the empty string (a backup the
controller has not touched yet) is the `empty` constructor. -/
inductive BackupPhase where
  | empty
  | new
  | failedValidation
  | inProgress
  | completed
  | partiallyFailed
  | failed
deriving DecidableEq, Repr

/-- The string stored in `Status.Phase` for each phase tag. -/
def BackupPhase.str : BackupPhase → String
  | .empty => ""
  | .new => "New"
  | .failedValidation => "FailedValidation"
  | .inProgress => "InProgress"
  | .completed => "Completed"
  | .partiallyFailed => "PartiallyFailed"
  | .failed => "Failed"

/-- `BackupSpec`: the user-authored, immutable inputs of a Backup. -/
structure BackupSpec where
  includedNamespaces : List String
  excludedNamespaces : List String
  includedResources : List String
  excludedResources : List String
  labelSelector : Option String
  storageLocation : String
  volumeSnapshotLocations : List String
  ttl : Nat
deriving DecidableEq, Repr

/-- `BackupStatus`: the controller-written outputs of a Backup.  Timestamps are
naturals (the `time.Time` zero value is `0`). -/
structure BackupStatus where
  phase : BackupPhase
  version : Nat
  expiration : Nat
  startTimestamp : Nat
  completionTimestamp : Nat
  validationErrors : List String
  errors : Nat
  warnings : Nat
deriving DecidableEq, Repr

/-- A Backup resource.  Identity is `(ns, name)`.  `deletionTimestamp` is
`none` for a `nil` pointer and `some t` for a set pointer whose time is `t`. -/
structure Backup where
  ns : String
  name : String
  labels : List (String × String)
  creationTimestamp : Nat
  deletionTimestamp : Option Nat
  spec : BackupSpec
  status : BackupStatus
deriving DecidableEq, Repr

/-- Access mode of a backup storage location. -/
inductive AccessMode where
  | readWrite
  | readOnly
deriving DecidableEq, Repr

/-- A named BackupStorageLocation: provider tag, bucket, access mode. -/
structure BackupStorageLocation where
  name : String
  provider : String
  bucket : String
  accessMode : AccessMode
deriving DecidableEq, Repr

/-- A named VolumeSnapshotLocation carrying its provider tag. -/
structure VolumeSnapshotLocation where
  name : String
  provider : String
deriving DecidableEq, Repr

/-! ## Go byte-wise string comparison

Go compares strings byte by byte.  For the ASCII names appearing in this
development this is the code-point comparison on `List Char`. -/

/-- Go's `x < y` on strings, byte-wise lexicographic. -/
def goLt : List Char → List Char → Bool
  | [], [] => false
  | [], _ :: _ => true
  | _ :: _, [] => false
  | a :: as, b :: bs => if a < b then true else if b < a then false else goLt as bs

/-- Go's `x >= y` on strings is the negation of `x < y`. -/
def goGe (x y : List Char) : Bool := !goLt x y

/-! ## Listing order (`backup_printer.go`, `sortBackupsByPrefixAndTimestamp`)

The regular expression `-[0-9]{14}$` matches at most once, at byte index
`len - 15`: the match is anchored at the end of the string and has fixed
length 15. -/

/-- Whether `name` ends in `-` followed by 14 digits (the schedule timestamp
marker matched by `timestampSuffix`). -/
def hasTimestampSuffix (name : List Char) : Bool :=
  decide (15 ≤ name.length) &&
    match name.drop (name.length - 15) with
    | '-' :: ds => ds.all Char.isDigit
    | _ => false

/-- `Name[0:iSuffixIndex[0]]`: the part of the name before the timestamp
suffix. -/
def tsPre (name : List Char) : List Char := name.take (name.length - 15)

/-- `Name[iSuffixIndex[0]:]`: the timestamp suffix, `-` included. -/
def tsSuf (name : List Char) : List Char := name.drop (name.length - 15)

/-- The comparison closure passed to `sort.Slice` in
`sortBackupsByPrefixAndTimestamp`: alphabetical by name, except that two names
bearing the timestamp suffix and sharing the part before it compare by suffix
descending (`>=`, newest first). -/
def backupLess (a b : Backup) : Bool :=
  let x := a.name.data
  let y := b.name.data
  if !hasTimestampSuffix x || !hasTimestampSuffix y then goLt x y
  else if tsPre x ≠ tsPre y then goLt x y
  else goGe (tsSuf x) (tsSuf y)

/-- One step of insertion sort in functional form: the new element `x`
bubbles down from the right end of the already-sorted prefix (stored here in
reverse) while `less x prev` holds.  Used by the proofs; the sort itself is
the index-based embedding of `sort.Slice` below, proved equal to this form on
whole lists. -/
def bubbleInsert (less : α → α → Bool) (x : α) : List α → List α
  | [] => [x]
  | y :: rest => if less x y then y :: bubbleInsert less x rest else x :: y :: rest

/-- Functional form of Go's `insertionSort` over a whole list; `acc` is the
sorted prefix in reverse. -/
def goInsertionSortAux (less : α → α → Bool) : List α → List α → List α
  | acc, [] => acc.reverse
  | acc, x :: rest => goInsertionSortAux less (bubbleInsert less x acc) rest

/-- Functional form of Go's `insertionSort` over a whole list. -/
def goInsertionSort (less : α → α → Bool) (l : List α) : List α :=
  goInsertionSortAux less [] l

/-! ### Go's `sort.Slice` (`sort.go` of Go 1.12/1.13, unchanged up to 1.18)

`sort.Slice(s, less)` runs `quickSort(lessSwap{less, swap}, 0, n, maxDepth(n))`.
The slice is held as a `List`; `data.Less`/`data.Swap` become index
operations with an explicit default element that is never read (every index
reached is in range).  Each Go loop becomes a structurally recursive function
on an explicit fuel chosen at the call site to bound its iteration count, so
running out of fuel is unreachable; this keeps every definition reducible in
the kernel.  All Go `int` values involved are non-negative and every
subtraction reached is non-underflowing, so `Nat` with truncated subtraction
coincides. -/

/-- `data.Less(i, j)`. -/
def idxLess (less : α → α → Bool) (d : α) (l : List α) (i j : Nat) : Bool :=
  less (l.getD i d) (l.getD j d)

/-- `data.Swap(i, j)`. -/
def lswap (d : α) (l : List α) (i j : Nat) : List α :=
  (l.set i (l.getD j d)).set j (l.getD i d)

/-- The inner loop of Go's `insertionSort`:
`for j := i; j > a && data.Less(j, j-1); j-- { data.Swap(j, j-1) }`.
Fuel `i - a` is exact: each iteration decrements `j`, and with the fuel gone
`j` has reached `a` where the guard is false anyway. -/
def insSortInner (less : α → α → Bool) (d : α) : Nat → List α → Nat → Nat → List α
  | 0, l, _, _ => l
  | fuel + 1, l, j, a =>
    if j > a && idxLess less d l j (j - 1) then
      insSortInner less d fuel (lswap d l j (j - 1)) (j - 1) a
    else l

/-- The outer loop of Go's `insertionSort`: `for i := a + 1; i < b; i++`.
Fuel `b - a` covers the `b - a - 1` iterations plus the final guard check. -/
def insSortOuter (less : α → α → Bool) (d : α) : Nat → List α → Nat → Nat → Nat → List α
  | 0, l, _, _, _ => l
  | fuel + 1, l, i, a, b =>
    if i < b then
      insSortOuter less d fuel (insSortInner less d (i - a) l i a) (i + 1) a b
    else l

/-- Go's `insertionSort(data, a, b)` on the segment `[a, b)`. -/
def insertionSortGo (less : α → α → Bool) (d : α) (l : List α) (a b : Nat) : List α :=
  insSortOuter less d (b - a) l (a + 1) a b

/-- The gap-6 shell pass `quickSort` runs before `insertionSort` on segments
of 2 to 12 elements: `for i := a+6; i < b; i++ { if data.Less(i, i-6)
{ data.Swap(i, i-6) } }`.  Fuel `b - a` covers the at most `b - a - 6`
iterations plus the final guard check. -/
def shellPass6 (less : α → α → Bool) (d : α) : Nat → List α → Nat → Nat → List α
  | 0, l, _, _ => l
  | fuel + 1, l, i, b =>
    if i < b then
      shellPass6 less d fuel
        (if idxLess less d l i (i - 6) then lswap d l i (i - 6) else l) (i + 1) b
    else l

/-- Go's `siftDown(data, lo, hi, first)`.  The root index strictly increases
each iteration, so fuel `hi` is ample. -/
def siftDownGo (less : α → α → Bool) (d : α) : Nat → List α → Nat → Nat → Nat → List α
  | 0, l, _, _, _ => l
  | fuel + 1, l, root, hi, first =>
    let child := 2 * root + 1
    if child ≥ hi then l
    else
      let child :=
        if child + 1 < hi && idxLess less d l (first + child) (first + child + 1) then
          child + 1
        else child
      if !idxLess less d l (first + root) (first + child) then l
      else siftDownGo less d fuel (lswap d l (first + root) (first + child)) child hi first

/-- The heap-build loop of Go's `heapSort`:
`for i := (hi-1)/2; i >= 0; i--  { siftDown(data, i, hi, first) }`; the fuel
counts down through the loop indices, so `(hi-1)/2 + 1` is exact. -/
def heapBuild (less : α → α → Bool) (d : α) : Nat → List α → Nat → Nat → List α
  | 0, l, _, _ => l
  | k + 1, l, hi, first =>
    heapBuild less d k (siftDownGo less d hi l k hi first) hi first

/-- The pop loop of Go's `heapSort`: `for i := hi-1; i >= 0; i--
{ data.Swap(first, first+i); siftDown(data, 0, i, first) }`; fuel `hi` is
exact. -/
def heapPop (less : α → α → Bool) (d : α) : Nat → List α → Nat → List α
  | 0, l, _ => l
  | k + 1, l, first =>
    heapPop less d k
      (siftDownGo less d (k + 1) (lswap d l first (first + k)) 0 k first) first

/-- Go's `heapSort(data, a, b)`. -/
def heapSortGo (less : α → α → Bool) (d : α) (l : List α) (a b : Nat) : List α :=
  heapPop less d (b - a) (heapBuild less d ((b - a - 1) / 2 + 1) l (b - a) a) a

/-- Go's `medianOfThree(data, m1, m0, m2)`: moves the median of the three
values into `data[m1]`. -/
def medianOfThreeGo (less : α → α → Bool) (d : α) (l : List α) (m1 m0 m2 : Nat) :
    List α :=
  let l := if idxLess less d l m1 m0 then lswap d l m1 m0 else l
  if idxLess less d l m2 m1 then
    let l := lswap d l m2 m1
    if idxLess less d l m1 m0 then lswap d l m1 m0 else l
  else l

/-- `doPivot`'s first scan: `for ; a < c && data.Less(a, pivot); a++`.  Also
the second scan of the protect loop (with `c := b`).  Fuel: `a` strictly
increases towards `c`. -/
def dpScanLtUp (less : α → α → Bool) (d : α) : Nat → List α → Nat → Nat → Nat → Nat
  | 0, _, a, _, _ => a
  | fuel + 1, l, a, c, pivot =>
    if a < c && idxLess less d l a pivot then dpScanLtUp less d fuel l (a + 1) c pivot
    else a

/-- `doPivot`'s partition scan `for ; b < c && !data.Less(pivot, b); b++`. -/
def dpScanLeUp (less : α → α → Bool) (d : α) : Nat → List α → Nat → Nat → Nat → Nat
  | 0, _, b, _, _ => b
  | fuel + 1, l, b, c, pivot =>
    if b < c && !idxLess less d l pivot b then dpScanLeUp less d fuel l (b + 1) c pivot
    else b

/-- `doPivot`'s partition scan `for ; b < c && data.Less(pivot, c-1); c--`. -/
def dpScanGtDown (less : α → α → Bool) (d : α) : Nat → List α → Nat → Nat → Nat → Nat
  | 0, _, _, c, _ => c
  | fuel + 1, l, b, c, pivot =>
    if b < c && idxLess less d l pivot (c - 1) then dpScanGtDown less d fuel l b (c - 1) pivot
    else c

/-- `doPivot`'s main partition loop; each iteration shrinks `c - b`, so fuel
`hi` is ample.  Returns the list with the final `b` and `c`. -/
def dpPartition (less : α → α → Bool) (d : α) :
    Nat → List α → Nat → Nat → Nat → List α × Nat × Nat
  | 0, l, b, c, _ => (l, b, c)
  | fuel + 1, l, b, c, pivot =>
    let b := dpScanLeUp less d c l b c pivot
    let c := dpScanGtDown less d c l b c pivot
    if b ≥ c then (l, b, c)
    else dpPartition less d fuel (lswap d l b (c - 1)) (b + 1) (c - 1) pivot

/-- The protect loop's scan `for ; a < b && !data.Less(b-1, pivot); b--`. -/
def dpScanGeDown (less : α → α → Bool) (d : α) : Nat → List α → Nat → Nat → Nat → Nat
  | 0, _, _, b, _ => b
  | fuel + 1, l, a, b, pivot =>
    if a < b && !idxLess less d l (b - 1) pivot then dpScanGeDown less d fuel l a (b - 1) pivot
    else b

/-- `doPivot`'s duplicate-protection loop; each iteration shrinks `b - a`, so
fuel `hi` is ample.  Returns the list with the final `b`. -/
def dpProtect (less : α → α → Bool) (d : α) :
    Nat → List α → Nat → Nat → Nat → List α × Nat
  | 0, l, _, b, _ => (l, b)
  | fuel + 1, l, a, b, pivot =>
    let b := dpScanGeDown less d b l a b pivot
    let a := dpScanLtUp less d b l a b pivot
    if a ≥ b then (l, b)
    else dpProtect less d fuel (lswap d l a (b - 1)) (a + 1) (b - 1) pivot

/-- Go's `doPivot(data, lo, hi)`: median-of-three pivoting (Tukey's ninther
above 40 elements), three-way partition with the duplicate test and protect
phase, returning the list and `(midlo, midhi)`. -/
def doPivotGo (less : α → α → Bool) (d : α) (l : List α) (lo hi : Nat) :
    List α × Nat × Nat :=
  let m := (lo + hi) / 2
  let l :=
    if hi - lo > 40 then
      let s := (hi - lo) / 8
      let l := medianOfThreeGo less d l lo (lo + s) (lo + 2 * s)
      let l := medianOfThreeGo less d l m (m - s) (m + s)
      medianOfThreeGo less d l (hi - 1) (hi - 1 - s) (hi - 1 - 2 * s)
    else l
  let l := medianOfThreeGo less d l lo m (hi - 1)
  let pivot := lo
  let a := dpScanLtUp less d (hi - 1) l (lo + 1) (hi - 1) pivot
  let (l, b, c) := dpPartition less d hi l a (hi - 1) pivot
  let protect := decide (hi - c < 5)
  let (l, b, c, protect) :=
    if !protect && decide (hi - c < (hi - lo) / 4) then
      let dups := 0
      let (l, c, dups) :=
        if !idxLess less d l pivot (hi - 1) then (lswap d l c (hi - 1), c + 1, dups + 1)
        else (l, c, dups)
      let (b, dups) :=
        if !idxLess less d l (b - 1) pivot then (b - 1, dups + 1) else (b, dups)
      let (l, b, dups) :=
        if !idxLess less d l m pivot then (lswap d l m (b - 1), b - 1, dups + 1)
        else (l, b, dups)
      (l, b, c, decide (dups > 1))
    else (l, b, c, protect)
  let (l, b) := if protect then dpProtect less d hi l a b pivot else (l, b)
  (lswap d l pivot (b - 1), b - 1, c)

/-- Go's `quickSort(data, a, b, maxDepth)`: the `for b-a > 12` loop recurses
on the smaller half and continues on the larger, decrementing `maxDepth` each
iteration and falling back to heapsort at zero; segments of at most 12 get
the gap-6 shell pass and insertion sort.  Both the loop continuation and the
recursive call decrement `maxDepth`, so fuel `maxDepth + 1` is exact. -/
def quickSortGo (less : α → α → Bool) (d : α) : Nat → List α → Nat → Nat → Nat → List α
  | 0, l, _, _, _ => l
  | fuel + 1, l, a, b, depth =>
    if b - a > 12 then
      if depth = 0 then heapSortGo less d l a b
      else
        let (l, mlo, mhi) := doPivotGo less d l a b
        if mlo - a < b - mhi then
          quickSortGo less d fuel (quickSortGo less d fuel l a mlo (depth - 1)) mhi b
            (depth - 1)
        else
          quickSortGo less d fuel (quickSortGo less d fuel l mhi b (depth - 1)) a mlo
            (depth - 1)
    else if b - a > 1 then
      insertionSortGo less d (shellPass6 less d (b - a) l (a + 6) b) a b
    else l

/-- The loop of Go's `maxDepth`: `for i := n; i > 0; i >>= 1 { depth++ }`;
`i` halves each iteration, so fuel `n + 1` is ample. -/
def maxDepthLoop : Nat → Nat → Nat
  | 0, _ => 0
  | fuel + 1, i => if i > 0 then maxDepthLoop fuel (i / 2) + 1 else 0

/-- Go's `maxDepth(n)`: twice the number of bits of `n`, the depth at which
quicksort switches to heapsort. -/
def maxDepthGo (n : Nat) : Nat := maxDepthLoop (n + 1) n * 2

/-- Go's `sort.Slice`: `quickSort(lessSwap{less, swap}, 0, len(s), maxDepth(len(s)))`. -/
def sortSlice (less : α → α → Bool) (d : α) (l : List α) : List α :=
  quickSortGo less d (maxDepthGo l.length + 1) l 0 l.length (maxDepthGo l.length)

/-- The Go zero value of `Backup`, used as the never-read out-of-range
default of the index accesses in the sort. -/
def zeroBackup : Backup :=
  { ns := "", name := "", labels := [], creationTimestamp := 0
    deletionTimestamp := none
    spec := { includedNamespaces := [], excludedNamespaces := []
              includedResources := [], excludedResources := []
              labelSelector := none, storageLocation := ""
              volumeSnapshotLocations := [], ttl := 0 }
    status := { phase := BackupPhase.empty, version := 0, expiration := 0
                startTimestamp := 0, completionTimestamp := 0
                validationErrors := [], errors := 0, warnings := 0 } }

/-- `sortBackupsByPrefixAndTimestamp`: sorts the items of a backup list with
`sort.Slice` under `backupLess`. -/
def sortBackupsByPrefixAndTimestamp (items : List Backup) : List Backup :=
  sortSlice backupLess zeroBackup items

/-! ## Printer adapter (`backup_printer.go`, `printBackup`) -/

/-- `metav1.FormatLabelSelector`: a `nil` selector prints as `<none>`. -/
def formatLabelSelector : Option String → String
  | none => "<none>"
  | some s => s

/-- `backup.DeletionTimestamp != nil && !backup.DeletionTimestamp.Time.IsZero()`. -/
def deletionNonZero (b : Backup) : Bool :=
  match b.deletionTimestamp with
  | none => false
  | some t => decide (t ≠ 0)

/-- The Status cell computed by `printBackup`: phase string with the empty
phase shown as `New`, overridden to `Deleting` for a deleted backup, and an
error count appended when the resulting value is `PartiallyFailed`. -/
def backupStatusCell (b : Backup) : String :=
  let status := b.status.phase.str
  let status := if status = "" then "New" else status
  let status := if deletionNonZero b then "Deleting" else status
  if status = "PartiallyFailed" then
    if b.status.errors = 1 then
      status ++ " (1 error)"
    else
      status ++ " (" ++ toString b.status.errors ++ " errors)"
  else status

/-- The row produced by `printBackup`.  The Created cell carries the raw
`time.Time` value appended to the row; the Expires cell is the raw expiration
time handed to `humanReadableTimeFromNow` (its human formatting depends on
`time.Now` and is outside this model). -/
structure TableRow where
  name : String
  statusCell : String
  created : Nat
  expiresTime : Nat
  storageLocation : String
  selector : String
deriving DecidableEq, Repr

/-- `printBackup`: builds the table row for one Backup. -/
def printBackup (b : Backup) : TableRow :=
  let expiration :=
    if b.status.expiration = 0 ∧ b.spec.ttl > 0 then
      b.creationTimestamp + b.spec.ttl
    else b.status.expiration
  { name := b.name
    statusCell := backupStatusCell b
    created := b.status.startTimestamp
    expiresTime := expiration
    storageLocation := b.spec.storageLocation
    selector := formatLabelSelector b.spec.labelSelector }

/-! ## SHA-256

Modelled from the spec: the label-safe name encoding (spec section 4.2) uses
"the first 6 hex characters of a stable hash (e.g., SHA-256) of the full
name"; the repository's `TestBackupLocationLabel` pins the hash to SHA-256
(its expected suffix `58343f` is the leading 6 hex characters of the SHA-256
digest of the 70-character test name).  32-bit words are `Nat`s reduced modulo
`2 ^ 32`. -/

/-- Truncation to a 32-bit word. -/
def w32 (n : Nat) : Nat := n % 4294967296

/-- 32-bit right rotation. -/
def rotr32 (x n : Nat) : Nat := w32 ((x >>> n) ||| (x <<< (32 - n)))

/-- SHA-256 padding: append `0x80`, zeros to 56 mod 64, and the bit length as
a 64-bit big-endian integer. -/
def sha256Pad (msg : List Nat) : List Nat :=
  let len := msg.length
  let zeros := (64 + 56 - (len + 1) % 64) % 64
  let lenBits := len * 8
  msg ++ [128] ++ List.replicate zeros 0 ++
    [(lenBits >>> 56) % 256, (lenBits >>> 48) % 256, (lenBits >>> 40) % 256,
     (lenBits >>> 32) % 256, (lenBits >>> 24) % 256, (lenBits >>> 16) % 256,
     (lenBits >>> 8) % 256, lenBits % 256]

/-- Split a byte list into 64-byte blocks, with structural recursion on a
fuel bounded by the list length (each step consumes 64 bytes). -/
def chunks64Fuel : Nat → List Nat → List (List Nat)
  | 0, _ => []
  | _, [] => []
  | fuel + 1, l => l.take 64 :: chunks64Fuel fuel (l.drop 64)

/-- Split a byte list into 64-byte blocks. -/
def chunks64 (l : List Nat) : List (List Nat) := chunks64Fuel l.length l

/-- Big-endian 32-bit words from a byte list. -/
def bytesToWords : List Nat → List Nat
  | b0 :: b1 :: b2 :: b3 :: rest =>
      ((b0 <<< 24) ||| (b1 <<< 16) ||| (b2 <<< 8) ||| b3) :: bytesToWords rest
  | _ => []

/-- Message-schedule extension: append `n` further words to `w`. -/
def extendW : Nat → List Nat → List Nat
  | 0, w => w
  | n + 1, w =>
    let i := w.length
    let w15 := w.getD (i - 15) 0
    let w2 := w.getD (i - 2) 0
    let s0 := (rotr32 w15 7) ^^^ (rotr32 w15 18) ^^^ (w15 >>> 3)
    let s1 := (rotr32 w2 17) ^^^ (rotr32 w2 19) ^^^ (w2 >>> 10)
    extendW n (w ++ [w32 (w.getD (i - 16) 0 + s0 + w.getD (i - 7) 0 + s1)])

/-- The eight 32-bit working variables of SHA-256. -/
structure Hash8 where
  a : Nat
  b : Nat
  c : Nat
  d : Nat
  e : Nat
  f : Nat
  g : Nat
  h : Nat
deriving DecidableEq, Repr

/-- One SHA-256 compression round for the pair (round constant, schedule word). -/
def sha256Round (s : Hash8) (kw : Nat × Nat) : Hash8 :=
  let S1 := (rotr32 s.e 6) ^^^ (rotr32 s.e 11) ^^^ (rotr32 s.e 25)
  let ch := (s.e &&& s.f) ^^^ ((s.e ^^^ 4294967295) &&& s.g)
  let temp1 := w32 (s.h + S1 + ch + kw.1 + kw.2)
  let S0 := (rotr32 s.a 2) ^^^ (rotr32 s.a 13) ^^^ (rotr32 s.a 22)
  let maj := (s.a &&& s.b) ^^^ (s.a &&& s.c) ^^^ (s.b &&& s.c)
  let temp2 := w32 (S0 + maj)
  { a := w32 (temp1 + temp2), b := s.a, c := s.b, d := s.c
    e := w32 (s.d + temp1), f := s.e, g := s.f, h := s.g }

/-- The 64 SHA-256 round constants (FIPS 180-4, written in decimal). -/
def sha256K : List Nat :=
  [1116352408, 1899447441, 3049323471, 3921009573, 961987163, 1508970993,
   2453635748, 2870763221, 3624381080, 310598401, 607225278, 1426881987,
   1925078388, 2162078206, 2614888103, 3248222580, 3835390401, 4022224774,
   264347078, 604807628, 770255983, 1249150122, 1555081692, 1996064986,
   2554220882, 2821834349, 2952996808, 3210313671, 3336571891, 3584528711,
   113926993, 338241895, 666307205, 773529912, 1294757372, 1396182291,
   1695183700, 1986661051, 2177026350, 2456956037, 2730485921, 2820302411,
   3259730800, 3345764771, 3516065817, 3600352804, 4094571909, 275423344,
   430227734, 506948616, 659060556, 883997877, 958139571, 1322822218,
   1537002063, 1747873779, 1955562222, 2024104815, 2227730452, 2361852424,
   2428436474, 2756734187, 3204031479, 3329325298]

/-- The SHA-256 initial hash value (FIPS 180-4, written in decimal). -/
def sha256Init : Hash8 :=
  ⟨1779033703, 3144134277, 1013904242, 2773480762,
   1359893119, 2600822924, 528734635, 1541459225⟩

/-- Process one 64-byte block. -/
def sha256Block (st : Hash8) (block : List Nat) : Hash8 :=
  let w := extendW 48 (bytesToWords block)
  let r := (sha256K.zip w).foldl sha256Round st
  { a := w32 (st.a + r.a), b := w32 (st.b + r.b), c := w32 (st.c + r.c), d := w32 (st.d + r.d)
    e := w32 (st.e + r.e), f := w32 (st.f + r.f), g := w32 (st.g + r.g), h := w32 (st.h + r.h) }

/-- Lower-case hex digit for a value below 16. -/
def hexChar (n : Nat) : Char :=
  if n < 10 then Char.ofNat (48 + n) else Char.ofNat (87 + n)

/-- Eight hex digits of one 32-bit word, most significant first. -/
def hexWord (n : Nat) : List Char :=
  [hexChar ((n >>> 28) % 16), hexChar ((n >>> 24) % 16), hexChar ((n >>> 20) % 16),
   hexChar ((n >>> 16) % 16), hexChar ((n >>> 12) % 16), hexChar ((n >>> 8) % 16),
   hexChar ((n >>> 4) % 16), hexChar (n % 16)]

/-- The 64 hex characters of a digest state. -/
def hash8Hex (s : Hash8) : List Char :=
  hexWord s.a ++ hexWord s.b ++ hexWord s.c ++ hexWord s.d ++
    hexWord s.e ++ hexWord s.f ++ hexWord s.g ++ hexWord s.h

/-- `fmt.Sprintf("%x", sha256.Sum256([]byte(s)))`: the hex SHA-256 digest of an
ASCII string. -/
def sha256Hex (s : String) : String :=
  let bytes := s.data.map Char.toNat
  let st := (chunks64 (sha256Pad bytes)).foldl sha256Block sha256Init
  String.mk (hash8Hex st)

/-! ## Label-safe name encoding

Modelled from the spec (section 4.2): names of at most 63 characters pass
through unchanged; a longer name becomes its first `63 - 6` characters
followed by the first 6 hex characters of the SHA-256 digest of the full
name.  The repository's `TestBackupLocationLabel` pins the concrete output for
a 70-character name. -/

/-- The label value stored under `velero.io/storage-location`. -/
def labelEncode (name : String) : String :=
  if name.data.length ≤ 63 then name
  else String.mk (name.data.take 57 ++ (sha256Hex name).data.take 6)

/-! ## The backup controller

Modelled from the spec: the controller implementation is absent from the
source fragment (only its test file is present), so `processBackup`,
`prepareBackupRequest`, the validator and the snapshot-location resolver below
follow the specification's sections 4.3-4.6 and 7, with every user-visible
message string pinned by the repository's tests.  External collaborators
(clock, object store, item-backup pipeline, API client) are injected as fields
of `Controller`; each reconcile-scoped outcome of a collaborator call is a
field valid for the single `processBackup` invocation under scrutiny. -/

/-- The controller with its configuration, read-only caches and the outcomes
of its injected collaborators for one reconcile:

* `backupExists` / `existenceCheckError`: result of `BackupStore.BackupExists`;
* `backupperError`: `Backupper.Backup` returns a top-level error;
* `pipelineErrors` / `pipelineWarnings`: per-item counts the pipeline records
  on the request;
* `putBackupError`: `BackupStore.PutBackup` fails;
* `statusWriteError`: the final API-client status update fails (error kind 8,
  the only failure the spec assigns to status writes). -/
structure Controller where
  backupLister : List Backup
  backupLocationLister : List BackupStorageLocation
  snapshotLocationLister : List VolumeSnapshotLocation
  defaultBackupLocation : String
  defaultBackupTTL : Nat
  defaultSnapshotLocations : List (String × String)
  now : Nat
  backupExists : Bool
  existenceCheckError : Bool
  backupperError : Bool
  pipelineErrors : Nat
  pipelineWarnings : Nat
  putBackupError : Bool
  statusWriteError : Bool
deriving DecidableEq, Repr

/-- Split a character list at every `/` (`strings.Split(key, "/")`). -/
def splitOnSlash : List Char → List (List Char)
  | [] => [[]]
  | c :: rest =>
    match splitOnSlash rest with
    | seg :: segs => if c = '/' then [] :: seg :: segs else (c :: seg) :: segs
    | [] => [[]]

/-- Work-queue key parsing (`cache.SplitMetaNamespaceKey`): at most one `/`;
a key without a slash denotes the empty namespace. -/
def splitKey (key : String) : Option (String × String) :=
  match splitOnSlash key.data with
  | [name] => some ("", String.mk name)
  | [ns, name] => some (String.mk ns, String.mk name)
  | _ => none

/-- `Cache<Backup>.Get`: lookup in the read-only backup cache by identity. -/
def lookupBackup (l : List Backup) (ns name : String) : Option Backup :=
  l.find? (fun b => b.ns == ns && b.name == name)

/-- `Cache<BackupStorageLocation>.Get` by name. -/
def lookupLocation (l : List BackupStorageLocation) (name : String) :
    Option BackupStorageLocation :=
  l.find? (fun loc => loc.name == name)

/-- `Cache<VolumeSnapshotLocation>.Get` by name. -/
def lookupVSL (l : List VolumeSnapshotLocation) (name : String) :
    Option VolumeSnapshotLocation :=
  l.find? (fun loc => loc.name == name)

/-- Set a key in a Go label map, inserting or overwriting. -/
def setLabel (labels : List (String × String)) (k v : String) :
    List (String × String) :=
  if labels.any (fun p => p.1 == k) then
    labels.map (fun p => if p.1 == k then (k, v) else p)
  else labels ++ [(k, v)]

/-- The `velero.io/storage-location` label key. -/
def storageLocationLabel : String := "velero.io/storage-location"

/-! ### Validator (spec section 4.4) -/

/-- The first excluded item that also appears in the includes list. -/
def firstOverlap (includes excludes : List String) : Option String :=
  excludes.find? (fun x => includes.contains x)

/-- Include/exclude disjointness for one kind (`resource` or `namespace`):
on overlap, one error naming the first overlapping item. -/
def validateIncludesExcludes (kind : String) (includes excludes : List String) :
    List String :=
  match firstOverlap includes excludes with
  | none => []
  | some x =>
      ["Invalid included/excluded " ++ kind ++
       " lists: excludes list cannot contain an item in the includes list: " ++ x]

/-- Storage-location existence and writability: the named location must be in
the cache and must not be read-only.  Message strings as pinned by
`TestProcessBackupValidationFailures`. -/
def validateStorageLocation (c : Controller) (name : String) : List String :=
  match lookupLocation c.backupLocationLister name with
  | none =>
      ["a BackupStorageLocation CRD with the name specified in the backup spec needs to be created before this backup can be executed. Error: backupstoragelocation.velero.io \"" ++
       name ++ "\" not found"]
  | some loc =>
      if loc.accessMode = AccessMode.readOnly then
        ["backup can't be created because backup storage location " ++ loc.name ++
         " is currently in read-only mode"]
      else []

/-! ### Snapshot-location resolver (spec section 4.5)

`validateAndGetSnapshotLocations` returns the mapping provider → chosen
location (an association list with pairwise-distinct providers) together with
the accumulated errors.  Go iterates its maps in unspecified order; the model
determinizes by processing cluster locations in cache order.  The duplicate
message places the newly-encountered name first and the retained name after
`unexpected name was`, as pinned by `TestValidateAndGetSnapshotLocations`. -/

/-- Pass 1: walk `Spec.VolumeSnapshotLocations`, checking existence and
keeping the first location retained per provider; a second distinct name for
an already-represented provider is an error, an identical one is deduplicated
silently. -/
def resolveNamed (c : Controller) :
    List String → List (String × VolumeSnapshotLocation) → List String →
    List (String × VolumeSnapshotLocation) × List String
  | [], acc, errs => (acc, errs)
  | n :: rest, acc, errs =>
    match lookupVSL c.snapshotLocationLister n with
    | none =>
        resolveNamed c rest acc (errs ++
          ["a VolumeSnapshotLocation CRD for the location " ++ n ++
           " with the name specified in the backup spec needs to be created before this snapshot can be executed. Error: volumesnapshotlocation.velero.io \"" ++
           n ++ "\" not found"])
    | some loc =>
      match acc.find? (fun p => p.1 == loc.provider) with
      | some kept =>
          if kept.2.name ≠ n then
            resolveNamed c rest acc (errs ++
              ["more than one VolumeSnapshotLocation name specified for provider " ++
               loc.provider ++ ": " ++ n ++ "; unexpected name was " ++ kept.2.name])
          else resolveNamed c rest acc errs
      | none => resolveNamed c rest (acc ++ [(loc.provider, loc)]) errs

/-- The distinct providers present in the cluster, in cache order. -/
def providersOf (l : List VolumeSnapshotLocation) : List String :=
  l.foldl (fun acc loc => if acc.contains loc.provider then acc else acc ++ [loc.provider]) []

/-- All cluster locations of one provider. -/
def locationsForProvider (l : List VolumeSnapshotLocation) (p : String) :
    List VolumeSnapshotLocation :=
  l.filter (fun loc => loc.provider == p)

/-- The configured default location name for a provider, if any. -/
def lookupDefault (d : List (String × String)) (p : String) : Option String :=
  (d.find? (fun q => q.1 == p)).map (fun q => q.2)

/-- Pass 2 (spec section 4.5 step 3), one provider: a provider already
represented is kept; otherwise its configured default is picked when set, a
sole cluster location is picked implicitly, and several candidates without a
default are an error. -/
def fillProvider (c : Controller)
    (st : List (String × VolumeSnapshotLocation) × List String) (p : String) :
    List (String × VolumeSnapshotLocation) × List String :=
  if (st.1.find? (fun q => q.1 == p)).isSome then st
  else
    match lookupDefault c.defaultSnapshotLocations p with
    | some dn =>
      match lookupVSL c.snapshotLocationLister dn with
      | some loc => (st.1 ++ [(p, loc)], st.2)
      | none =>
          (st.1, st.2 ++
            ["error getting volume snapshot location named " ++ dn ++
             ": volumesnapshotlocation.velero.io \"" ++ dn ++ "\" not found"])
    | none =>
      match locationsForProvider c.snapshotLocationLister p with
      | [loc] => (st.1 ++ [(p, loc)], st.2)
      | _ =>
          (st.1, st.2 ++
            ["provider " ++ p ++
             " has more than one possible volume snapshot location, and none were specified explicitly or as a default"])

/-- `validateAndGetSnapshotLocations`: resolve the effective provider →
location mapping for a backup, with errors. -/
def validateAndGetSnapshotLocations (c : Controller) (b : Backup) :
    List (String × VolumeSnapshotLocation) × List String :=
  let named := resolveNamed c b.spec.volumeSnapshotLocations [] []
  (providersOf c.snapshotLocationLister).foldl (fillProvider c) named

/-! ### Request builder (spec section 4.3) -/

/-- All validation errors recorded on a request: include/exclude disjointness
for resources and namespaces, storage-location existence and writability, and
snapshot-location resolution.  `loc` is the storage location after
defaulting. -/
def computeValidationErrors (c : Controller) (b : Backup) (loc : String) :
    List String :=
  validateIncludesExcludes "resource" b.spec.includedResources b.spec.excludedResources ++
    validateIncludesExcludes "namespace" b.spec.includedNamespaces b.spec.excludedNamespaces ++
    validateStorageLocation c loc ++
    (validateAndGetSnapshotLocations c b).2

/-- Defaulting rule 1 of spec section 4.3: an empty `Spec.StorageLocation`
becomes the controller's `defaultBackupLocation`. -/
def defaultedLocation (c : Controller) (b : Backup) : String :=
  if b.spec.storageLocation = "" then c.defaultBackupLocation
  else b.spec.storageLocation

/-- `prepareBackupRequest`: deep-copy the backup, apply the defaulting rules
of spec section 4.3 in order (storage location, TTL, storage-location label,
version, start timestamp, expiration), and populate the validation errors. -/
def prepareBackupRequest (c : Controller) (b : Backup) : Backup :=
  let loc := defaultedLocation c b
  let ttl := if b.spec.ttl = 0 then c.defaultBackupTTL else b.spec.ttl
  { b with
    labels := setLabel b.labels storageLocationLabel (labelEncode loc)
    spec := { b.spec with storageLocation := loc, ttl := ttl }
    status := { b.status with
      version := 1
      startTimestamp := c.now
      expiration := c.now + ttl
      validationErrors := computeValidationErrors c b loc } }

/-! ### Runner (spec sections 4.6 and 7) -/

/-- What one `processBackup` invocation did: the successful cluster status
writes in order (the cluster-observable Backup after the call is the last
entry, or the original when empty), whether a request was built and
validated, whether `Backupper.Backup` and `BackupStore.PutBackup` were
invoked, and whether an error was returned to the work queue. -/
structure Outcome where
  updates : List Backup
  requestBuilt : Bool
  backupperInvoked : Bool
  putBackupInvoked : Bool
  returnedError : Bool
deriving DecidableEq, Repr

/-- The no-op outcome: nothing written, nothing invoked, no error returned. -/
def noOutcome : Outcome :=
  { updates := [], requestBuilt := false, backupperInvoked := false
    putBackupInvoked := false, returnedError := false }

/-- Replace the phase of a backup. -/
def setPhase (b : Backup) (p : BackupPhase) : Backup :=
  { b with status := { b.status with phase := p } }

/-- The controller processes a backup only in the empty or `New` phase. -/
def eligiblePhase (p : BackupPhase) : Bool :=
  p = BackupPhase.empty || p = BackupPhase.new

/-- The execution-and-upload stage for an in-progress request (spec section
4.6): the store existence check fails or finds an artifact → `Failed` without
invoking the pipeline; a top-level pipeline error → `Failed`; an upload error
→ `Failed`; recorded per-item errors → `PartiallyFailed`; otherwise
`Completed`.  The completion timestamp is stamped and the counts copied in
the same transition.  Returns the terminal request and whether the pipeline
and the upload were invoked. -/
def runBackup (c : Controller) (req : Backup) : Backup × Bool × Bool :=
  if c.backupExists || c.existenceCheckError then
    ({ req with status := { req.status with
        phase := BackupPhase.failed, completionTimestamp := c.now } },
     false, false)
  else if c.backupperError then
    ({ req with status := { req.status with
        phase := BackupPhase.failed, completionTimestamp := c.now } },
     true, false)
  else
    let counted := { req with status := { req.status with
      errors := c.pipelineErrors, warnings := c.pipelineWarnings
      completionTimestamp := c.now } }
    if c.putBackupError then
      (setPhase counted BackupPhase.failed, true, true)
    else if c.pipelineErrors > 0 then
      (setPhase counted BackupPhase.partiallyFailed, true, true)
    else
      (setPhase counted BackupPhase.completed, true, true)

/-- `processBackup(key)`: the reconcile entry point (spec section 4.6).  A
malformed key or a backup missing from the cache is logged and swallowed; a
backup in any phase other than empty/`New` is skipped untouched.  Otherwise a
request is built and validated: validation errors are written with phase
`FailedValidation` and the pipeline is never invoked; a valid request is
written as `InProgress` and then run to a terminal phase.  Only a failing
final status write surfaces an error to the work queue (error kind 8); the
intermediate `InProgress` write is not given a failure mode by the spec. -/
def processBackup (c : Controller) (key : String) : Outcome :=
  match splitKey key with
  | none => noOutcome
  | some (ns, name) =>
    match lookupBackup c.backupLister ns name with
    | none => noOutcome
    | some original =>
      if eligiblePhase original.status.phase then
        let request := prepareBackupRequest c original
        if request.status.validationErrors = [] then
          let inProg := setPhase request BackupPhase.inProgress
          let run := runBackup c inProg
          if c.statusWriteError then
            { updates := [inProg], requestBuilt := true
              backupperInvoked := run.2.1, putBackupInvoked := run.2.2
              returnedError := true }
          else
            { updates := [inProg, run.1], requestBuilt := true
              backupperInvoked := run.2.1, putBackupInvoked := run.2.2
              returnedError := false }
        else
          if c.statusWriteError then
            { updates := [], requestBuilt := true, backupperInvoked := false
              putBackupInvoked := false, returnedError := true }
          else
            { updates := [setPhase request BackupPhase.failedValidation]
              requestBuilt := true, backupperInvoked := false
              putBackupInvoked := false, returnedError := false }
      else noOutcome

/-! ## Concrete fixtures

The objects built by the repository's test helpers (`defaultBackup`,
`builder.ForBackupStorageLocation`, `builder.ForVolumeSnapshotLocation`). -/

/-- A backup spec with every field at its zero value. -/
def emptySpec : BackupSpec :=
  { includedNamespaces := [], excludedNamespaces := [], includedResources := []
    excludedResources := [], labelSelector := none, storageLocation := ""
    volumeSnapshotLocations := [], ttl := 0 }

/-- A backup status in phase `New` with every other field at its zero value. -/
def newStatus : BackupStatus :=
  { phase := BackupPhase.new, version := 0, expiration := 0, startTimestamp := 0
    completionTimestamp := 0, validationErrors := [], errors := 0, warnings := 0 }

/-- `defaultBackup()`: a fresh backup named `name` in namespace `velero`. -/
def namedBackup (name : String) : Backup :=
  { ns := "velero", name := name, labels := [], creationTimestamp := 0
    deletionTimestamp := none, spec := emptySpec, status := newStatus }

/-- The default backup storage location `loc-1` with bucket `store-1`. -/
def defaultLocation : BackupStorageLocation :=
  { name := "loc-1", provider := "", bucket := "store-1", accessMode := AccessMode.readWrite }

/-- A controller wired like the tests: default location `loc-1`, frozen clock,
every collaborator succeeding. -/
def baseController : Controller :=
  { backupLister := [], backupLocationLister := [defaultLocation]
    snapshotLocationLister := [], defaultBackupLocation := "loc-1"
    defaultBackupTTL := 0, defaultSnapshotLocations := [], now := 7
    backupExists := false, existenceCheckError := false, backupperError := false
    pipelineErrors := 0, pipelineWarnings := 0, putBackupError := false
    statusWriteError := false }

/-- `aws-us-east-1`, provider `aws`. -/
def vslAwsEast : VolumeSnapshotLocation := { name := "aws-us-east-1", provider := "aws" }

/-- `aws-us-west-1`, provider `aws`. -/
def vslAwsWest : VolumeSnapshotLocation := { name := "aws-us-west-1", provider := "aws" }

/-- `some-name`, provider `fake-provider`. -/
def vslFakeSome : VolumeSnapshotLocation := { name := "some-name", provider := "fake-provider" }

/-- A backup whose spec names the given volume snapshot locations. -/
def withVSL (names : List String) : Backup :=
  { namedBackup "backup-1" with spec := { emptySpec with volumeSnapshotLocations := names } }

/-- The base controller with the given snapshot-location cache and defaults. -/
def snapController (locs : List VolumeSnapshotLocation)
    (defaults : List (String × String)) : Controller :=
  { baseController with
    snapshotLocationLister := locs
    defaultSnapshotLocations := defaults }

/-- The 70-character storage-location name of `TestBackupLocationLabel`. -/
def longLocationName : String :=
  "defaultdefaultdefaultdefaultdefaultdefaultdefaultdefaultdefaultdefault"

/-! ## Claims about the runner -/

/-- C1: for every Backup whose phase is `FailedValidation`, `InProgress`,
`Completed`, `PartiallyFailed` or `Failed`, `processBackup` on its key is a
no-op: no status write touches the cluster-observable Backup, no request is
built or validated, the pipeline and the upload are never invoked, and no
error is returned; only a Backup with empty or `New` phase is processed. -/
theorem processBackup_terminal_phases_noop (c : Controller) (key ns name : String)
    (b : Backup) (hk : splitKey key = some (ns, name))
    (hb : lookupBackup c.backupLister ns name = some b)
    (hp : b.status.phase ∈
      [BackupPhase.failedValidation, BackupPhase.inProgress, BackupPhase.completed,
       BackupPhase.partiallyFailed, BackupPhase.failed]) :
    processBackup c key = noOutcome := by
  have he : eligiblePhase b.status.phase = false := by
    simp only [List.mem_cons, List.not_mem_nil, or_false] at hp
    rcases hp with h | h | h | h | h <;> rw [h] <;> rfl
  unfold processBackup
  simp only [hk, hb, he]
  rfl

/-- A `FailedValidation` backup parked in the cache. -/
def failedValidationBackup : Backup :=
  { namedBackup "backup-1" with
    status := { newStatus with phase := BackupPhase.failedValidation } }

/-- Witness for C1: the `FailedValidation` backup of
`TestProcessBackupNonProcessedItems` is left untouched. -/
theorem processBackup_terminal_phases_noop_witness :
    processBackup { baseController with backupLister := [failedValidationBackup] }
      "velero/backup-1" = noOutcome :=
  processBackup_terminal_phases_noop
    { baseController with backupLister := [failedValidationBackup] }
    "velero/backup-1" "velero" "backup-1" failedValidationBackup
    (by decide) (by decide) (by decide)

/-- C2: when validating a New/empty-phase Backup produces any error, the
runner records exactly the produced errors in `Status.ValidationErrors`, sets
the phase to `FailedValidation`, and invokes neither the item pipeline
(`Backupper.Backup`) nor the upload. -/
theorem processBackup_validation_failure (c : Controller) (key ns name : String)
    (b : Backup) (hk : splitKey key = some (ns, name))
    (hb : lookupBackup c.backupLister ns name = some b)
    (hp : eligiblePhase b.status.phase = true)
    (herr : computeValidationErrors c b (defaultedLocation c b) ≠ [])
    (hw : c.statusWriteError = false) :
    (processBackup c key).updates.map (fun u => u.status.phase) =
        [BackupPhase.failedValidation] ∧
      (processBackup c key).updates.map (fun u => u.status.validationErrors) =
        [computeValidationErrors c b (defaultedLocation c b)] ∧
      (processBackup c key).backupperInvoked = false ∧
      (processBackup c key).putBackupInvoked = false := by
  have hpe : (prepareBackupRequest c b).status.validationErrors =
      computeValidationErrors c b (defaultedLocation c b) := rfl
  unfold processBackup
  simp only [hk, hb, hp, if_true, hpe, herr, if_neg herr, hw]
  simp [setPhase, hpe]

/-- The backup of `TestProcessBackupValidationFailures` whose includes and
excludes both name `foo`. -/
def overlapBackup : Backup :=
  { namedBackup "backup-1" with
    spec := { emptySpec with includedResources := ["foo"], excludedResources := ["foo"] } }

/-- Witness for C2: the include/exclude overlap scenario ends in
`FailedValidation` carrying exactly the expected message, with no pipeline
invocation. -/
theorem processBackup_validation_failure_witness :
    (processBackup { baseController with backupLister := [overlapBackup] }
        "velero/backup-1").updates.map (fun u => u.status.phase) =
      [BackupPhase.failedValidation] ∧
    (processBackup { baseController with backupLister := [overlapBackup] }
        "velero/backup-1").updates.map (fun u => u.status.validationErrors) =
      [computeValidationErrors { baseController with backupLister := [overlapBackup] }
        overlapBackup
        (defaultedLocation { baseController with backupLister := [overlapBackup] }
          overlapBackup)] ∧
    (processBackup { baseController with backupLister := [overlapBackup] }
        "velero/backup-1").backupperInvoked = false ∧
    (processBackup { baseController with backupLister := [overlapBackup] }
        "velero/backup-1").putBackupInvoked = false :=
  processBackup_validation_failure
    { baseController with backupLister := [overlapBackup] }
    "velero/backup-1" "velero" "backup-1" overlapBackup
    (by decide) (by decide) (by decide) (by decide) rfl

/-- C3: when `BackupStore.BackupExists` reports an existing artifact or
itself fails, the runner transitions the Backup to `Failed` and invokes
neither `Backupper.Backup` nor `BackupStore.PutBackup`. -/
theorem processBackup_existence_conflict_fails (c : Controller)
    (key ns name : String) (b : Backup) (hk : splitKey key = some (ns, name))
    (hb : lookupBackup c.backupLister ns name = some b)
    (hp : eligiblePhase b.status.phase = true)
    (hval : computeValidationErrors c b (defaultedLocation c b) = [])
    (hex : c.backupExists = true ∨ c.existenceCheckError = true)
    (hw : c.statusWriteError = false) :
    (processBackup c key).updates.map (fun u => u.status.phase) =
        [BackupPhase.inProgress, BackupPhase.failed] ∧
      (processBackup c key).backupperInvoked = false ∧
      (processBackup c key).putBackupInvoked = false := by
  have hpe : (prepareBackupRequest c b).status.validationErrors =
      computeValidationErrors c b (defaultedLocation c b) := rfl
  have hexb : (c.backupExists || c.existenceCheckError) = true := by
    rcases hex with h | h <;> simp [h]
  unfold processBackup
  simp only [hk, hb, hp, if_true, hpe, hval, hw, Bool.false_eq_true, if_false, if_pos rfl]
  simp [runBackup, hexb, setPhase]

/-- Witness for C3: the `backup with existing backup will fail` scenario of
`TestProcessBackupCompletions` ends `Failed` without pipeline or upload. -/
theorem processBackup_existence_conflict_fails_witness :
    (processBackup
        { baseController with backupLister := [namedBackup "backup-1"], backupExists := true }
        "velero/backup-1").updates.map (fun u => u.status.phase) =
      [BackupPhase.inProgress, BackupPhase.failed] ∧
    (processBackup
        { baseController with backupLister := [namedBackup "backup-1"], backupExists := true }
        "velero/backup-1").backupperInvoked = false ∧
    (processBackup
        { baseController with backupLister := [namedBackup "backup-1"], backupExists := true }
        "velero/backup-1").putBackupInvoked = false :=
  processBackup_existence_conflict_fails
    { baseController with backupLister := [namedBackup "backup-1"], backupExists := true }
    "velero/backup-1" "velero" "backup-1" (namedBackup "backup-1")
    (by decide) (by decide) (by decide) (by decide) (Or.inl rfl) rfl

/-- Kinds 1-7 of the error taxonomy never surface an error: with the final
status write succeeding, `processBackup` returns no error on any input. -/
theorem processBackup_no_error_of_write_ok (c : Controller) (key : String)
    (hw : c.statusWriteError = false) :
    (processBackup c key).returnedError = false := by
  unfold processBackup
  simp only [hw, Bool.false_eq_true, if_false]
  split
  · rfl
  · split
    · rfl
    · split
      · split <;> rfl
      · rfl

/-- C5: `processBackup` returns a non-nil error only when the final status
write fails (error kind 8); in particular a malformed work-queue key and a
backup missing from the cache are swallowed, and the whole reconcile is a
no-op for them. -/
theorem processBackup_error_only_from_status_write :
    (∀ (c : Controller) (key : String),
      (processBackup c key).returnedError = true → c.statusWriteError = true) ∧
    (∀ c : Controller, processBackup c "bad/key/here" = noOutcome) ∧
    (∀ (c : Controller) (key ns name : String), splitKey key = some (ns, name) →
      lookupBackup c.backupLister ns name = none →
      processBackup c key = noOutcome) := by
  refine ⟨fun c key h => ?_, fun c => ?_, fun c key ns name hk hb => ?_⟩
  · by_cases hw : c.statusWriteError
    · exact hw
    · rw [processBackup_no_error_of_write_ok c key (by simp [hw])] at h
      exact absurd h (by simp)
  · unfold processBackup
    have : splitKey "bad/key/here" = none := by decide
    simp [this]
  · unfold processBackup
    simp [hk, hb]

/-- The base controller with one pending backup and a failing final status
write. -/
def writeFailController : Controller :=
  { baseController with backupLister := [namedBackup "backup-1"], statusWriteError := true }

/-- Witness for C5: the malformed key and the missing backup of
`TestProcessBackupNonProcessedItems` return no error, and a reconcile that
does return an error has a failing status write. -/
theorem processBackup_error_only_from_status_write_witness :
    processBackup baseController "bad/key/here" = noOutcome ∧
    processBackup baseController "nonexistent/backup" = noOutcome ∧
    writeFailController.statusWriteError = true :=
  ⟨processBackup_error_only_from_status_write.2.1 baseController,
   processBackup_error_only_from_status_write.2.2 baseController
     "nonexistent/backup" "nonexistent" "backup" (by decide) (by decide),
   processBackup_error_only_from_status_write.1 writeFailController
     "velero/backup-1" (by decide)⟩

/-! ## Claims about the label encoding -/

set_option maxRecDepth 100000 in
/-- C6: the label encoding is a function (hence deterministic), its output
never exceeds 63 characters, a name of at most 63 characters passes through
unchanged, a longer name becomes its first 57 characters followed by the
first 6 hex characters of the SHA-256 digest of the full name, and the
70-character name of `TestBackupLocationLabel` encodes to the expected
63-character label. -/
theorem labelEncode_spec :
    (∀ s : String, (labelEncode s).length ≤ 63) ∧
    (∀ s : String, s.length ≤ 63 → labelEncode s = s) ∧
    (∀ s : String, 63 < s.length →
      labelEncode s = String.mk (s.data.take 57 ++ (sha256Hex s).data.take 6)) ∧
    labelEncode longLocationName =
      "defaultdefaultdefaultdefaultdefaultdefaultdefaultdefaultd58343f" ∧
    (labelEncode longLocationName).length = 63 := by
  have hlen : ∀ s : String, s.length = s.data.length := by
    intro s; obtain ⟨d⟩ := s; rfl
  refine ⟨fun s => ?_, fun s h => ?_, fun s h => ?_, ?_, ?_⟩
  · unfold labelEncode
    split
    · next h => rw [hlen]; exact h
    · next h =>
      rw [hlen]
      show (s.data.take 57 ++ (sha256Hex s).data.take 6).length ≤ 63
      simp only [List.length_append, List.length_take]
      omega
  · unfold labelEncode
    rw [if_pos]
    rw [hlen] at h
    exact h
  · unfold labelEncode
    rw [if_neg]
    rw [hlen] at h
    omega
  · decide
  · decide

/-- Witness for C6: a short location name passes through unchanged, and the
70-character test name takes the truncate-and-hash form. -/
theorem labelEncode_spec_witness :
    labelEncode "loc-1" = "loc-1" ∧
    labelEncode longLocationName =
      String.mk (longLocationName.data.take 57 ++ (sha256Hex longLocationName).data.take 6) :=
  ⟨labelEncode_spec.2.1 "loc-1" (by decide),
   labelEncode_spec.2.2.1 longLocationName (by decide)⟩

/-! ## Claims about the snapshot-location resolver -/

/-- A successful cache lookup returns a location bearing the requested name. -/
theorem lookupVSL_name {l : List VolumeSnapshotLocation} {n : String}
    {loc : VolumeSnapshotLocation} (h : lookupVSL l n = some loc) : loc.name = n := by
  have := List.find?_some h
  simpa using this

/-- C4: the resolver keeps exactly one location per referenced provider:
a duplicated location name is deduplicated without error; two distinct
existing names for one provider produce the `more than one
VolumeSnapshotLocation name specified` error (new name first, retained name
after `unexpected name was`, as the repository's test pins it); a provider
not named by the spec is filled from `defaultSnapshotLocations` when set and
implicitly when the cluster has exactly one location for it; and the
`multiple location names for a provider, default location name for another
provider` scenario resolves to `{aws-us-west-1, some-name}` with no
errors. -/
theorem validateAndGetSnapshotLocations_spec :
    (∀ (c : Controller) (b b' : Backup) (n : String) (loc : VolumeSnapshotLocation)
        (rest : List String),
      b.spec.volumeSnapshotLocations = n :: n :: rest →
      b'.spec.volumeSnapshotLocations = n :: rest →
      lookupVSL c.snapshotLocationLister n = some loc →
      validateAndGetSnapshotLocations c b = validateAndGetSnapshotLocations c b') ∧
    (∀ (c : Controller) (n1 n2 : String) (l1 l2 : VolumeSnapshotLocation),
      lookupVSL c.snapshotLocationLister n1 = some l1 →
      lookupVSL c.snapshotLocationLister n2 = some l2 →
      l2.provider = l1.provider → n2 ≠ n1 →
      ("more than one VolumeSnapshotLocation name specified for provider " ++
          l2.provider ++ ": " ++ n2 ++ "; unexpected name was " ++ l1.name) ∈
        (resolveNamed c [n1, n2] [] []).2) ∧
    validateAndGetSnapshotLocations (snapController [vslAwsEast] []) (withVSL []) =
      ([("aws", vslAwsEast)], []) ∧
    validateAndGetSnapshotLocations
        (snapController [vslAwsEast, vslAwsWest] [("aws", "aws-us-east-1")])
        (withVSL []) =
      ([("aws", vslAwsEast)], []) ∧
    validateAndGetSnapshotLocations
        (snapController [vslAwsWest, vslFakeSome] [("fake-provider", "some-name")])
        (withVSL ["aws-us-west-1", "aws-us-west-1"]) =
      ([("aws", vslAwsWest), ("fake-provider", vslFakeSome)], []) := by
  refine ⟨fun c b b' n loc rest hb hb' hl => ?_,
    fun c n1 n2 l1 l2 h1 h2 hprov hne => ?_, by decide, by decide, by decide⟩
  · have hname : loc.name = n := lookupVSL_name hl
    unfold validateAndGetSnapshotLocations
    rw [hb, hb']
    simp [resolveNamed, hl, List.find?, hname]
  · have hn1 : l1.name = n1 := lookupVSL_name h1
    simp only [resolveNamed, h1, h2, List.find?]
    rw [hprov]
    simp only [beq_self_eq_true, List.find?]
    have hcond : l1.name ≠ n2 := by rw [hn1]; exact Ne.symm hne
    simp [resolveNamed, hcond]

/-- Witness for C4: the duplicated `aws-us-west-1` spec entry resolves like a
single one, and the `aws-us-east-1`/`aws-us-west-1` pair produces the
duplicate-provider error. -/
theorem validateAndGetSnapshotLocations_spec_witness :
    validateAndGetSnapshotLocations (snapController [vslAwsWest, vslFakeSome] [])
        (withVSL ["aws-us-west-1", "aws-us-west-1"]) =
      validateAndGetSnapshotLocations (snapController [vslAwsWest, vslFakeSome] [])
        (withVSL ["aws-us-west-1"]) ∧
    ("more than one VolumeSnapshotLocation name specified for provider " ++
        vslAwsWest.provider ++ ": " ++ "aws-us-west-1" ++ "; unexpected name was " ++
        vslAwsEast.name) ∈
      (resolveNamed (snapController [vslAwsEast, vslAwsWest, vslFakeSome] [])
        ["aws-us-east-1", "aws-us-west-1"] [] []).2 :=
  ⟨validateAndGetSnapshotLocations_spec.1
      (snapController [vslAwsWest, vslFakeSome] [])
      (withVSL ["aws-us-west-1", "aws-us-west-1"]) (withVSL ["aws-us-west-1"])
      "aws-us-west-1" vslAwsWest [] rfl rfl (by decide),
   validateAndGetSnapshotLocations_spec.2.1
      (snapController [vslAwsEast, vslAwsWest, vslFakeSome] [])
      "aws-us-east-1" "aws-us-west-1" vslAwsEast vslAwsWest
      (by decide) (by decide) rfl (by decide)⟩

/-! ## Claims about the printer -/

/-- The `PartiallyFailed` backup with two errors and a non-zero deletion
timestamp: the deletion override hides the error count. -/
def deletingPartiallyFailedBackup : Backup :=
  { namedBackup "backup-1" with
    deletionTimestamp := some 5
    status := { newStatus with phase := BackupPhase.partiallyFailed, errors := 2 } }

/-- Counterexample to C9 as stated: for a backup whose phase is
`PartiallyFailed` (with 2 errors) and whose deletion timestamp is non-zero,
the code does not append the error count after the `Deleting` override — the
cell is plain `Deleting`. -/
theorem backupStatusCell_deleting_hides_error_count :
    backupStatusCell deletingPartiallyFailedBackup = "Deleting" ∧
    backupStatusCell deletingPartiallyFailedBackup ≠ "Deleting (2 errors)" ∧
    backupStatusCell deletingPartiallyFailedBackup ≠ "PartiallyFailed (2 errors)" := by
  decide

/-- C9 (amended): the Status cell starts from `Status.Phase` with the empty
phase mapped to `New`; a non-zero `DeletionTimestamp` overrides the value to
`Deleting`; and the ` (<N> error)`/` (<N> errors)` count — singular exactly
when `Status.Errors` is 1 — is appended only when the resulting value is
`PartiallyFailed`, i.e. when the phase is `PartiallyFailed` and the backup is
not being deleted. -/
theorem backupStatusCell_spec (b : Backup) :
    (deletionNonZero b = true → backupStatusCell b = "Deleting") ∧
    (deletionNonZero b = false → b.status.phase = BackupPhase.partiallyFailed →
      backupStatusCell b =
        (if b.status.errors = 1 then "PartiallyFailed (1 error)"
         else "PartiallyFailed (" ++ toString b.status.errors ++ " errors)")) ∧
    (deletionNonZero b = false → b.status.phase = BackupPhase.empty →
      backupStatusCell b = "New") ∧
    (deletionNonZero b = false → b.status.phase ≠ BackupPhase.partiallyFailed →
      b.status.phase ≠ BackupPhase.empty → backupStatusCell b = b.status.phase.str) := by
  refine ⟨fun hd => ?_, fun hd hp => ?_, fun hd hp => ?_, fun hd hp he => ?_⟩
  · simp [backupStatusCell, hd]
  · simp [backupStatusCell, hd, hp, BackupPhase.str]
  · simp [backupStatusCell, hd, hp, BackupPhase.str]
  · cases hph : b.status.phase <;>
      simp_all [backupStatusCell, BackupPhase.str]

/-- Witness for C9: a deleting backup shows `Deleting`; a live
`PartiallyFailed` backup with two errors shows the plural count. -/
theorem backupStatusCell_spec_witness :
    backupStatusCell deletingPartiallyFailedBackup = "Deleting" ∧
    backupStatusCell
        { namedBackup "backup-1" with
          status := { newStatus with phase := BackupPhase.partiallyFailed, errors := 2 } } =
      (if (2 : Nat) = 1 then "PartiallyFailed (1 error)"
       else "PartiallyFailed (" ++ toString (2 : Nat) ++ " errors)") :=
  ⟨(backupStatusCell_spec deletingPartiallyFailedBackup).1 (by decide),
   (backupStatusCell_spec
      { namedBackup "backup-1" with
        status := { newStatus with phase := BackupPhase.partiallyFailed, errors := 2 } }).2.1
     (by decide) rfl⟩

/-- A backup that was created at time 100 but never started. -/
def neverStartedBackup : Backup :=
  { namedBackup "backup-1" with creationTimestamp := 100 }

/-- C10: the Created cell of the printed row is `Status.StartTimestamp`, not
`ObjectMeta.CreationTimestamp`; a backup that has never been started shows
the zero time even though its creation timestamp is non-zero. -/
theorem printBackup_created_from_startTimestamp :
    (∀ b : Backup, (printBackup b).created = b.status.startTimestamp) ∧
    (printBackup neverStartedBackup).created = 0 ∧
    neverStartedBackup.creationTimestamp = 100 ∧
    (printBackup neverStartedBackup).created ≠ neverStartedBackup.creationTimestamp :=
  ⟨fun _ => rfl, by decide, by decide, by decide⟩

/-- Witness for C10: the never-started backup's row carries the zero time in
the Created cell while its creation timestamp is 100. -/
theorem printBackup_created_from_startTimestamp_witness :
    (printBackup neverStartedBackup).created = 0 ∧
    neverStartedBackup.creationTimestamp = 100 :=
  ⟨printBackup_created_from_startTimestamp.2.1,
   printBackup_created_from_startTimestamp.2.2.1⟩

/-! ## Claims about the listing order -/

/-- C7: the listing order is alphabetical when either name lacks the
timestamp suffix, orders two timestamped names with a common part before the
suffix by suffix descending (newest first), and sorts the concrete input of
the repository's test into the expected order. -/
theorem sortBackups_listing_order :
    sortBackupsByPrefixAndTimestamp
        [namedBackup "daily-20210101010101", namedBackup "daily-20210102010101",
         namedBackup "adhoc", namedBackup "daily-20210101010102"] =
      [namedBackup "adhoc", namedBackup "daily-20210102010101",
       namedBackup "daily-20210101010102", namedBackup "daily-20210101010101"] ∧
    (∀ a b : Backup,
      hasTimestampSuffix a.name.data = false ∨ hasTimestampSuffix b.name.data = false →
      backupLess a b = goLt a.name.data b.name.data) ∧
    (∀ a b : Backup, hasTimestampSuffix a.name.data = true →
      hasTimestampSuffix b.name.data = true →
      tsPre a.name.data = tsPre b.name.data →
      backupLess a b = goGe (tsSuf a.name.data) (tsSuf b.name.data)) := by
  refine ⟨by decide, fun a b h => ?_, fun a b h1 h2 h3 => ?_⟩
  · unfold backupLess
    rcases h with h | h <;> simp [h]
  · unfold backupLess
    simp [h1, h2, h3]

/-- Witness for C7: `adhoc` compares alphabetically with a timestamped name,
and the two January dailies compare by suffix. -/
theorem sortBackups_listing_order_witness :
    backupLess (namedBackup "adhoc") (namedBackup "daily-20210102010101") =
      goLt (namedBackup "adhoc").name.data (namedBackup "daily-20210102010101").name.data ∧
    backupLess (namedBackup "daily-20210102010101") (namedBackup "daily-20210101010102") =
      goGe (tsSuf (namedBackup "daily-20210102010101").name.data)
        (tsSuf (namedBackup "daily-20210101010102").name.data) :=
  ⟨sortBackups_listing_order.2.1 _ _ (Or.inl (by decide)),
   sortBackups_listing_order.2.2 _ _ (by decide) (by decide) (by decide)⟩

/-! ### Ordering lemmas for the listing comparator

The closure passed to `sort.Slice` is not a strict weak order: two distinct
backups sharing a timestamp-suffixed name compare `less` in both directions
(`>=` on equal suffixes), so Go's insertion sort swaps them on every pass.
On backups with pairwise-distinct names the comparator is asymmetric, and
that is enough for one pass to produce a list whose adjacent pairs never
compare backwards — which a second pass then leaves unchanged. -/

/-- Two strings with equal character data are equal. -/
theorem string_data_inj {s t : String} (h : s.data = t.data) : s = t := by
  obtain ⟨d⟩ := s
  obtain ⟨e⟩ := t
  cases h
  rfl

/-- Byte-wise `<` is asymmetric. -/
theorem goLt_asymm {x y : List Char} (h : goLt x y = true) : goLt y x = false := by
  induction x generalizing y with
  | nil =>
    cases y with
    | nil => simp [goLt] at h
    | cons b bs => rfl
  | cons a as ih =>
    cases y with
    | nil => simp [goLt] at h
    | cons b bs =>
      unfold goLt at h ⊢
      by_cases hab : a < b
      · have hba : ¬ b < a := lt_asymm hab
        simp [hab, hba]
      · by_cases hba : b < a
        · simp [hab, hba] at h
        · simp only [hab, hba, if_false] at h ⊢
          exact ih h

/-- Byte-wise `<` failing in both directions forces equality. -/
theorem goLt_conn {x y : List Char} (hxy : goLt x y = false)
    (hyx : goLt y x = false) : x = y := by
  induction x generalizing y with
  | nil =>
    cases y with
    | nil => rfl
    | cons b bs => simp [goLt] at hxy
  | cons a as ih =>
    cases y with
    | nil => simp [goLt] at hyx
    | cons b bs =>
      unfold goLt at hxy hyx
      by_cases hab : a < b
      · simp [hab] at hxy
      · by_cases hba : b < a
        · simp [hba] at hyx
        · have hae : a = b := le_antisymm (le_of_not_lt hba) (le_of_not_lt hab)
          simp only [hab, hba, if_false] at hxy hyx
          rw [hae, ih hxy hyx]

/-- On two backups with different names, the listing comparator is
asymmetric. -/
theorem backupLess_asymm {a b : Backup} (hn : a.name ≠ b.name)
    (h : backupLess a b = true) : backupLess b a = false := by
  unfold backupLess at h ⊢
  cases hx : hasTimestampSuffix a.name.data with
  | false =>
    simp only [hx, Bool.not_false, Bool.not_true, Bool.true_or, Bool.or_true,
      Bool.false_or, Bool.or_false, if_true] at h ⊢
    exact goLt_asymm h
  | true =>
    cases hy : hasTimestampSuffix b.name.data with
    | false =>
      simp only [hx, hy, Bool.not_false, Bool.not_true, Bool.true_or, Bool.or_true,
        Bool.false_or, Bool.or_false, if_true] at h ⊢
      exact goLt_asymm h
    | true =>
      simp only [hx, hy, Bool.not_true, Bool.or_self, Bool.false_eq_true,
        if_false] at h ⊢
      by_cases hpre : tsPre a.name.data = tsPre b.name.data
      · rw [if_neg (fun hcon => hcon hpre)] at h
        rw [if_neg (fun hcon => hcon hpre.symm)]
        cases hgl : goLt (tsSuf b.name.data) (tsSuf a.name.data) with
        | true => simp [goGe, hgl]
        | false =>
          exfalso
          have hxf : goLt (tsSuf a.name.data) (tsSuf b.name.data) = false := by
            simpa [goGe] using h
          have hsuf : tsSuf b.name.data = tsSuf a.name.data := goLt_conn hgl hxf
          apply hn
          apply string_data_inj
          calc a.name.data
              = tsPre a.name.data ++ tsSuf a.name.data :=
                (List.take_append_drop _ _).symm
            _ = tsPre b.name.data ++ tsSuf b.name.data := by rw [hpre, hsuf]
            _ = b.name.data := List.take_append_drop _ _
      · rw [if_pos hpre] at h
        rw [if_pos (Ne.symm hpre)]
        exact goLt_asymm h

/-- The two-direction asymmetry a pair of list elements must satisfy for the
insertion sort to stabilize. -/
def lessAsymPair (less : α → α → Bool) (a b : α) : Prop :=
  (less a b = true → less b a = false) ∧ (less b a = true → less a b = false)

/-- `lessAsymPair` is symmetric. -/
theorem lessAsymPair_symm (less : α → α → Bool) :
    Symmetric (lessAsymPair less) := fun _ _ h => ⟨h.2, h.1⟩

/-- Bubbling an element into the reversed prefix permutes it to the front. -/
theorem bubbleInsert_perm (less : α → α → Bool) (x : α) :
    ∀ acc : List α, List.Perm (bubbleInsert less x acc) (x :: acc)
  | [] => List.Perm.refl _
  | y :: rest => by
    unfold bubbleInsert
    split
    · exact ((bubbleInsert_perm less x rest).cons y).trans (List.Perm.swap x y rest)
    · exact List.Perm.refl _

/-- Inserting `x` preserves the no-backward-comparison shape of the reversed
prefix, provided `x` compares asymmetrically with every prefix element. -/
theorem chain_bubbleInsert (less : α → α → Bool) (x : α) :
    ∀ acc : List α,
      (∀ z ∈ acc, less x z = true → less z x = false) →
      List.Chain' (fun u v => less u v = false) acc →
      List.Chain' (fun u v => less u v = false) (bubbleInsert less x acc)
  | [], _, _ => List.chain'_singleton x
  | y :: rest, hax, hc => by
    unfold bubbleInsert
    split
    · next hxy =>
      have hyx : less y x = false := hax y (List.mem_cons_self y rest) hxy
      have ih := chain_bubbleInsert less x rest
        (fun z hz => hax z (List.mem_cons_of_mem y hz)) hc.tail
      refine List.chain'_cons'.mpr ⟨?_, ih⟩
      intro w hw
      cases rest with
      | nil =>
        simp only [bubbleInsert, List.head?, Option.mem_def, Option.some.injEq] at hw
        rw [← hw]
        exact hyx
      | cons z rest' =>
        rw [show bubbleInsert less x (z :: rest') =
            if less x z then z :: bubbleInsert less x rest' else x :: z :: rest'
          from rfl] at hw
        split at hw
        · simp only [List.head?, Option.mem_def, Option.some.injEq] at hw
          rw [← hw]
          exact (List.chain'_cons.mp hc).1
        · simp only [List.head?, Option.mem_def, Option.some.injEq] at hw
          rw [← hw]
          exact hyx
    · next hxy =>
      refine List.chain'_cons.mpr ⟨?_, hc⟩
      simpa using hxy

/-- One pass of the insertion sort produces a list whose adjacent pairs never
compare backwards, provided all element pairs compare asymmetrically. -/
theorem goSortAux_chain (less : α → α → Bool) :
    ∀ (l acc : List α),
      List.Pairwise (lessAsymPair less) (acc ++ l) →
      List.Chain' (fun u v => less u v = false) acc →
      List.Chain' (fun u v => less v u = false) (goInsertionSortAux less acc l)
  | [], acc, _, hc => by
    unfold goInsertionSortAux
    exact List.chain'_reverse.mpr (by simpa [flip] using hc)
  | x :: rest, acc, hp, hc => by
    unfold goInsertionSortAux
    have hax : ∀ z ∈ acc, less x z = true → less z x = false := by
      intro z hz
      exact ((List.pairwise_append.mp hp).2.2 z hz x (List.mem_cons_self x rest)).2
    have hc' := chain_bubbleInsert less x acc hax hc
    have hperm : List.Perm (bubbleInsert less x acc ++ rest) (acc ++ x :: rest) :=
      ((bubbleInsert_perm less x acc).append_right rest).trans List.perm_middle.symm
    have hp' : List.Pairwise (lessAsymPair less) (bubbleInsert less x acc ++ rest) :=
      (List.Perm.pairwise_iff (fun {u v} hs => (lessAsymPair_symm less) hs) hperm).mpr hp
    exact goSortAux_chain less rest (bubbleInsert less x acc) hp' hc'

/-- A list whose adjacent pairs never compare backwards is a fixed point of
the insertion sort. -/
theorem goSortAux_fixed (less : α → α → Bool) :
    ∀ (l acc : List α),
      List.Chain' (fun u v => less v u = false) (acc.reverse ++ l) →
      goInsertionSortAux less acc l = acc.reverse ++ l
  | [], acc, _ => by simp [goInsertionSortAux]
  | x :: rest, acc, hc => by
    unfold goInsertionSortAux
    have hbi : bubbleInsert less x acc = x :: acc := by
      cases acc with
      | nil => rfl
      | cons y acc' =>
        have hxy : less x y = false := by
          have h1 : (y :: acc').reverse ++ x :: rest =
              acc'.reverse ++ (y :: x :: rest) := by
            rw [List.reverse_cons, List.append_assoc]
            rfl
          rw [h1] at hc
          exact (List.chain'_cons.mp (List.chain'_append.mp hc).2.1).1
        simp [bubbleInsert, hxy]
    rw [hbi]
    have harr : (x :: acc).reverse ++ rest = acc.reverse ++ x :: rest := by
      rw [List.reverse_cons, List.append_assoc]
      rfl
    rw [goSortAux_fixed less rest (x :: acc) (by rw [harr]; exact hc), harr]

/-! ### `sort.Slice` on at most six items is the functional insertion sort

For a whole list of at most six items the quicksort loop is skipped
(`n ≤ 12`), the gap-6 shell pass compares nothing (`a + 6 ≥ b`), and the
index-based `insertionSort` over `[0, n)` coincides with the functional
form above.  The lemmas below establish that equivalence. -/

/-- Reading the element sitting right after a prefix. -/
theorem getD_append_mid (A : List α) (x : α) (S : List α) (d : α) :
    (A ++ x :: S).getD A.length d = x := by
  induction A with
  | nil => rfl
  | cons a A ih => simpa using ih

/-- Reading the element sitting two places after a prefix. -/
theorem getD_append_mid1 (A : List α) (y x : α) (S : List α) (d : α) :
    (A ++ y :: x :: S).getD (A.length + 1) d = x := by
  induction A with
  | nil => rfl
  | cons a A ih => simpa using ih

/-- Writing the element sitting right after a prefix. -/
theorem set_append_mid (A : List α) (x v : α) (S : List α) :
    (A ++ x :: S).set A.length v = A ++ v :: S := by
  induction A with
  | nil => rfl
  | cons a A ih => simp [ih]

/-- Writing the element sitting two places after a prefix. -/
theorem set_append_mid1 (A : List α) (y x v : α) (S : List α) :
    (A ++ y :: x :: S).set (A.length + 1) v = A ++ y :: v :: S := by
  induction A with
  | nil => rfl
  | cons a A ih => simp [ih]

/-- `data.Swap(j, j-1)` on the list shaped around index `j = |A| + 1`. -/
theorem lswap_append_mid (d : α) (A : List α) (y x : α) (S : List α) :
    lswap d (A ++ y :: x :: S) (A.length + 1) A.length = A ++ x :: y :: S := by
  unfold lswap
  rw [getD_append_mid, getD_append_mid1, set_append_mid1, set_append_mid]

/-- The defining equation of `bubbleInsert` on a non-empty prefix. -/
theorem bubbleInsert_cons (less : α → α → Bool) (x y : α) (rest : List α) :
    bubbleInsert less x (y :: rest) =
      if less x y then y :: bubbleInsert less x rest else x :: y :: rest := rfl

/-- The inner insertion loop started at `j = |R|` on `R.reverse ++ x :: S`
bubbles `x` exactly like `bubbleInsert` on the reversed prefix `R`. -/
theorem insSortInner_eq_bubbleInsert (less : α → α → Bool) (d : α) :
    ∀ (R : List α) (x : α) (S : List α),
      insSortInner less d R.length (R.reverse ++ x :: S) R.length 0 =
        (bubbleInsert less x R).reverse ++ S
  | [], x, S => rfl
  | y :: R', x, S => by
    have hlist : (y :: R').reverse ++ x :: S = R'.reverse ++ y :: x :: S := by
      rw [List.reverse_cons, List.append_assoc]
      rfl
    have hlen : (y :: R').length = R'.length + 1 := rfl
    rw [hlen, hlist]
    unfold insSortInner
    have hget : idxLess less d (R'.reverse ++ y :: x :: S) (R'.length + 1)
        (R'.length + 1 - 1) = less x y := by
      unfold idxLess
      rw [show R'.length + 1 - 1 = R'.length from rfl]
      rw [show R'.length = (R'.reverse).length from (List.length_reverse R').symm,
        getD_append_mid, getD_append_mid1]
    cases hxy : less x y with
    | true =>
      rw [if_pos (by rw [hget, hxy]; simp)]
      have hswap : lswap d (R'.reverse ++ y :: x :: S) (R'.length + 1)
          (R'.length + 1 - 1) = R'.reverse ++ x :: y :: S := by
        rw [show R'.length + 1 - 1 = R'.length from rfl]
        rw [show R'.length = (R'.reverse).length from (List.length_reverse R').symm]
        exact lswap_append_mid d R'.reverse y x S
      rw [hswap, show R'.length + 1 - 1 = R'.length from rfl,
        insSortInner_eq_bubbleInsert less d R' x (y :: S)]
      rw [bubbleInsert_cons, hxy, if_pos rfl, List.reverse_cons, List.append_assoc]
      rfl
    | false =>
      rw [if_neg (by rw [hget, hxy]; simp)]
      rw [bubbleInsert_cons, hxy, if_neg (by simp)]
      rw [show (x :: y :: R').reverse = R'.reverse ++ [y, x] by simp]
      rw [List.append_assoc]
      rfl

/-- `bubbleInsert` adds one element. -/
theorem length_bubbleInsert (less : α → α → Bool) (x : α) (acc : List α) :
    (bubbleInsert less x acc).length = acc.length + 1 :=
  (bubbleInsert_perm less x acc).length_eq

/-- The functional insertion sort preserves length. -/
theorem length_goInsertionSortAux (less : α → α → Bool) :
    ∀ (l acc : List α), (goInsertionSortAux less acc l).length = acc.length + l.length
  | [], acc => by simp [goInsertionSortAux]
  | x :: rest, acc => by
    unfold goInsertionSortAux
    rw [length_goInsertionSortAux less rest (bubbleInsert less x acc),
      length_bubbleInsert]
    simp only [List.length_cons]
    omega

/-- The outer insertion loop with `i = |R|` and the sorted prefix `R.reverse`
in place computes the functional insertion sort continuation. -/
theorem insSortOuter_eq_aux (less : α → α → Bool) (d : α) (rest : List α) :
    ∀ (R : List α) (fuel : Nat), rest.length + 1 ≤ fuel →
      insSortOuter less d fuel (R.reverse ++ rest) R.length 0 (R.length + rest.length) =
        goInsertionSortAux less R rest := by
  induction rest with
  | nil =>
    intro R fuel hf
    cases fuel with
    | zero => omega
    | succ f =>
      unfold insSortOuter
      rw [if_neg (by simp)]
      simp [goInsertionSortAux]
  | cons x rest' ih =>
    intro R fuel hf
    cases fuel with
    | zero => omega
    | succ f =>
      unfold insSortOuter
      rw [if_pos (by simp only [List.length_cons]; omega)]
      rw [Nat.sub_zero, insSortInner_eq_bubbleInsert less d R x rest']
      have hlb : R.length + 1 = (bubbleInsert less x R).length :=
        (length_bubbleInsert less x R).symm
      have hb : R.length + (x :: rest').length =
          (bubbleInsert less x R).length + rest'.length := by
        rw [← hlb]
        simp only [List.length_cons]
        omega
      rw [hlb, hb, ih (bubbleInsert less x R) f (by simp only [List.length_cons] at hf; omega)]
      rfl

/-- The shell pass started at or past the right end does nothing. -/
theorem shellPass6_of_ge (less : α → α → Bool) (d : α) (fuel : Nat) (l : List α)
    (i b : Nat) (h : b ≤ i) : shellPass6 less d fuel l i b = l := by
  cases fuel with
  | zero => rfl
  | succ f =>
    unfold shellPass6
    rw [if_neg (by omega)]

/-- On a whole list of at most six items, `sort.Slice` is exactly the
functional insertion sort. -/
theorem sortSlice_eq_goInsertionSort (less : α → α → Bool) (d : α) (l : List α)
    (hlen : l.length ≤ 6) :
    sortSlice less d l = goInsertionSort less l := by
  cases l with
  | nil => rfl
  | cons x rest =>
    unfold sortSlice quickSortGo
    rw [if_neg (by simp only [Nat.sub_zero]; omega)]
    cases rest with
    | nil => rfl
    | cons y rest' =>
      rw [if_pos (by simp only [Nat.sub_zero, List.length_cons]; omega)]
      rw [shellPass6_of_ge less d ((x :: y :: rest').length - 0) (x :: y :: rest')
        (0 + 6) ((x :: y :: rest').length)
        (by simp only [List.length_cons] at hlen ⊢; omega)]
      unfold insertionSortGo
      have haux := insSortOuter_eq_aux less d (y :: rest') [x]
        ((x :: y :: rest').length) (by simp)
      rw [show ([x] : List α).length + (y :: rest').length = (x :: y :: rest').length
          from by simp only [List.length_cons, List.length_nil]; omega] at haux
      exact haux

/-- The first of two distinct backups sharing the timestamp-suffixed name
`a-00000000000000`. -/
def dupNameBackupA : Backup := { namedBackup "a-00000000000000" with ns := "ns1" }

/-- The second of two distinct backups sharing the timestamp-suffixed name
`a-00000000000000`. -/
def dupNameBackupB : Backup := { namedBackup "a-00000000000000" with ns := "ns2" }

/-- Seven backups with pairwise-distinct names on which the comparator
cycles: `a-00000000000002x` lacks the 14-digit suffix (it ends in `x`) and
compares alphabetically, while the six timestamped names compare by suffix
descending among themselves. -/
def sevenCycleBackups : List Backup :=
  [namedBackup "a-00000000000008", namedBackup "a-00000000000002x",
   namedBackup "a-00000000000003", namedBackup "a-00000000000001",
   namedBackup "a-00000000000009", namedBackup "a-00000000000007",
   namedBackup "a-00000000000005"]

/-- Counterexample to C8 as stated, at two explicit inputs.  First: for two
distinct backups sharing one timestamp-suffixed name the comparator holds in
both directions (`>=` on equal suffixes), so each pass swaps the pair.
Second: even with pairwise-distinct names, a seven-element list enters the
regime where `sort.Slice` runs the gap-6 shell pass before the insertion
sort, and the comparator's non-transitivity on distinct names makes the
result of one pass change under a second pass. -/
theorem sortBackups_not_idempotent :
    (sortBackupsByPrefixAndTimestamp
        (sortBackupsByPrefixAndTimestamp [dupNameBackupA, dupNameBackupB]) ≠
      sortBackupsByPrefixAndTimestamp [dupNameBackupA, dupNameBackupB]) ∧
    sevenCycleBackups.Pairwise (fun a b => a.name ≠ b.name) ∧
    sortBackupsByPrefixAndTimestamp
        (sortBackupsByPrefixAndTimestamp sevenCycleBackups) ≠
      sortBackupsByPrefixAndTimestamp sevenCycleBackups := by
  refine ⟨by decide, by decide, by decide⟩

/-- C8 (amended): sorting is idempotent for every backup list of at most six
items whose items bear pairwise-distinct names — `Sort(Sort(L)) = Sort(L)`.
(At most six items keeps `sort.Slice` in its pure insertion-sort regime;
distinct names make the comparator asymmetric, so one pass yields a list
with no backward-comparing adjacent pair, which the second pass then leaves
unchanged.) -/
theorem sortBackups_idempotent_small_distinct_names (L : List Backup)
    (hlen : L.length ≤ 6) (h : L.Pairwise fun a b => a.name ≠ b.name) :
    sortBackupsByPrefixAndTimestamp (sortBackupsByPrefixAndTimestamp L) =
      sortBackupsByPrefixAndTimestamp L := by
  have hS : L.Pairwise (lessAsymPair backupLess) :=
    h.imp fun hn =>
      ⟨fun hab => backupLess_asymm hn hab, fun hba => backupLess_asymm (Ne.symm hn) hba⟩
  have hchain : List.Chain' (fun u v => backupLess v u = false)
      (goInsertionSortAux backupLess [] L) :=
    goSortAux_chain backupLess L [] (by simpa using hS) List.chain'_nil
  have h1 : sortBackupsByPrefixAndTimestamp L = goInsertionSort backupLess L :=
    sortSlice_eq_goInsertionSort backupLess zeroBackup L hlen
  have hlen2 : (goInsertionSort backupLess L).length ≤ 6 := by
    unfold goInsertionSort
    rw [length_goInsertionSortAux]
    simpa using hlen
  have h2 : sortBackupsByPrefixAndTimestamp (goInsertionSort backupLess L) =
      goInsertionSort backupLess (goInsertionSort backupLess L) :=
    sortSlice_eq_goInsertionSort backupLess zeroBackup _ hlen2
  have hfix := goSortAux_fixed backupLess (goInsertionSortAux backupLess [] L) []
    (by simpa using hchain)
  rw [h1, h2]
  show goInsertionSortAux backupLess [] (goInsertionSortAux backupLess [] L) =
    goInsertionSortAux backupLess [] L
  simpa using hfix

/-- Witness for C8 (amended): the four distinctly-named backups of the
listing test sort idempotently. -/
theorem sortBackups_idempotent_witness :
    sortBackupsByPrefixAndTimestamp (sortBackupsByPrefixAndTimestamp
        [namedBackup "daily-20210101010101", namedBackup "daily-20210102010101",
         namedBackup "adhoc", namedBackup "daily-20210101010102"]) =
      sortBackupsByPrefixAndTimestamp
        [namedBackup "daily-20210101010101", namedBackup "daily-20210102010101",
         namedBackup "adhoc", namedBackup "daily-20210101010102"] :=
  sortBackups_idempotent_small_distinct_names _ (by decide) (by decide)

end Velero
